import Mathlib

/-
Verification of the force-directed graph layout engine in graph-layout.js
(class Graph, latest snapshot in the file: the version with lastX/lastY
smoothing, Pythagorean force decomposition and zoom persistence).

Modelling conventions:
* JavaScript numbers are idealized as real numbers extended with the IEEE
  special values NaN, +Infinity and -Infinity (type JSNum below).  Negative
  zero and floating-point rounding are not modelled; all arithmetic on
  finite values is exact.  The special values ARE modelled faithfully,
  because the force-direction decomposition divides rise by run and the
  behaviour at zero separation (0/0 = NaN) is exactly what some claims are
  about.
* The per-frame force-apply loop (#updatePositions, apply phase) uses only
  +, /2 and Math.round, so it is modelled over exact rationals (UNode /
  applyStep below).
* newEdge validation, hover hit-testing, the node store and the persisted
  zoom scale are likewise exact and modelled over rationals / strings.
-/

/-! ## JS numbers: reals extended with NaN and the two infinities -/

inductive JSNum where
  | nan : JSNum
  | posInf : JSNum
  | negInf : JSNum
  | fin : ℝ → JSNum

noncomputable section

def jsAdd : JSNum → JSNum → JSNum
  | .nan, _ => .nan
  | _, .nan => .nan
  | .posInf, .negInf => .nan
  | .negInf, .posInf => .nan
  | .posInf, _ => .posInf
  | _, .posInf => .posInf
  | .negInf, _ => .negInf
  | _, .negInf => .negInf
  | .fin a, .fin b => .fin (a + b)

def jsNeg : JSNum → JSNum
  | .nan => .nan
  | .posInf => .negInf
  | .negInf => .posInf
  | .fin a => .fin (-a)

def jsSub (a b : JSNum) : JSNum := jsAdd a (jsNeg b)

def jsMul : JSNum → JSNum → JSNum
  | .nan, _ => .nan
  | _, .nan => .nan
  | .posInf, .posInf => .posInf
  | .posInf, .negInf => .negInf
  | .negInf, .posInf => .negInf
  | .negInf, .negInf => .posInf
  | .posInf, .fin b => if 0 < b then .posInf else if b < 0 then .negInf else .nan
  | .fin a, .posInf => if 0 < a then .posInf else if a < 0 then .negInf else .nan
  | .negInf, .fin b => if 0 < b then .negInf else if b < 0 then .posInf else .nan
  | .fin a, .negInf => if 0 < a then .negInf else if a < 0 then .posInf else .nan
  | .fin a, .fin b => .fin (a * b)

def jsDiv : JSNum → JSNum → JSNum
  | .nan, _ => .nan
  | _, .nan => .nan
  | .posInf, .posInf => .nan
  | .posInf, .negInf => .nan
  | .negInf, .posInf => .nan
  | .negInf, .negInf => .nan
  | .posInf, .fin b => if b < 0 then .negInf else .posInf
  | .negInf, .fin b => if b < 0 then .posInf else .negInf
  | .fin _, .posInf => .fin 0
  | .fin _, .negInf => .fin 0
  | .fin a, .fin b =>
    if b = 0 then (if a = 0 then .nan else if 0 < a then .posInf else .negInf)
    else .fin (a / b)

def jsSqrt : JSNum → JSNum
  | .nan => .nan
  | .posInf => .posInf
  | .negInf => .nan
  | .fin a => if a < 0 then .nan else .fin (Real.sqrt a)

def jsSign : JSNum → JSNum
  | .nan => .nan
  | .posInf => .fin 1
  | .negInf => .fin (-1)
  | .fin a => .fin (Real.sign a)

def jsAbs : JSNum → JSNum
  | .nan => .nan
  | .posInf => .posInf
  | .negInf => .posInf
  | .fin a => .fin |a|

def jsMin : JSNum → JSNum → JSNum
  | .nan, _ => .nan
  | _, .nan => .nan
  | .negInf, _ => .negInf
  | _, .negInf => .negInf
  | .posInf, b => b
  | a, .posInf => a
  | .fin a, .fin b => .fin (min a b)

def jsMax : JSNum → JSNum → JSNum
  | .nan, _ => .nan
  | _, .nan => .nan
  | .posInf, _ => .posInf
  | _, .posInf => .posInf
  | .negInf, b => b
  | a, .negInf => a
  | .fin a, .fin b => .fin (max a b)

/-- JS exponentiation by 2 (`x ** 2`), via multiplication. -/
def jsSq (a : JSNum) : JSNum := jsMul a a

/-! ### Reduction lemmas for finite operands and for NaN propagation -/

@[simp] lemma jsAdd_fin_fin (a b : ℝ) : jsAdd (.fin a) (.fin b) = .fin (a + b) := rfl

@[simp] lemma jsNeg_fin (a : ℝ) : jsNeg (.fin a) = .fin (-a) := rfl

@[simp] lemma jsSub_fin_fin (a b : ℝ) : jsSub (.fin a) (.fin b) = .fin (a - b) := by
  simp [jsSub, sub_eq_add_neg]

@[simp] lemma jsMul_fin_fin (a b : ℝ) : jsMul (.fin a) (.fin b) = .fin (a * b) := rfl

@[simp] lemma jsMin_fin_fin (a b : ℝ) : jsMin (.fin a) (.fin b) = .fin (min a b) := rfl

@[simp] lemma jsMax_fin_fin (a b : ℝ) : jsMax (.fin a) (.fin b) = .fin (max a b) := rfl

@[simp] lemma jsAbs_fin (a : ℝ) : jsAbs (.fin a) = .fin |a| := rfl

@[simp] lemma jsSign_fin (a : ℝ) : jsSign (.fin a) = .fin (Real.sign a) := rfl

lemma jsDiv_fin_fin (a b : ℝ) (h : b ≠ 0) : jsDiv (.fin a) (.fin b) = .fin (a / b) := by
  simp [jsDiv, h]

lemma jsDiv_zero_zero : jsDiv (.fin 0) (.fin 0) = .nan := by
  simp [jsDiv]

lemma jsDiv_fin_zero_pos (a : ℝ) (h : 0 < a) : jsDiv (.fin a) (.fin 0) = .posInf := by
  simp [jsDiv, h, h.ne']

lemma jsDiv_fin_zero_neg (a : ℝ) (h : a < 0) : jsDiv (.fin a) (.fin 0) = .negInf := by
  simp [jsDiv, h.ne, not_lt.mpr h.le]

@[simp] lemma jsDiv_fin_posInf (a : ℝ) : jsDiv (.fin a) .posInf = .fin 0 := rfl

@[simp] lemma jsDiv_fin_negInf (a : ℝ) : jsDiv (.fin a) .negInf = .fin 0 := rfl

@[simp] lemma jsDiv_fin_nan (a : ℝ) : jsDiv (.fin a) .nan = .nan := rfl

lemma jsSqrt_fin_nonneg (a : ℝ) (h : 0 ≤ a) : jsSqrt (.fin a) = .fin (Real.sqrt a) := by
  simp [jsSqrt, not_lt.mpr h]

@[simp] lemma jsSqrt_nan : jsSqrt .nan = .nan := rfl

@[simp] lemma jsSq_fin (a : ℝ) : jsSq (.fin a) = .fin (a * a) := rfl

@[simp] lemma jsSq_nan : jsSq .nan = .nan := rfl

@[simp] lemma jsSq_posInf : jsSq .posInf = .posInf := rfl

@[simp] lemma jsSq_negInf : jsSq .negInf = .posInf := rfl

@[simp] lemma jsAdd_fin_nan (a : ℝ) : jsAdd (.fin a) .nan = .nan := rfl

@[simp] lemma jsAdd_nan (z : JSNum) : jsAdd .nan z = .nan := by
  cases z <;> rfl

@[simp] lemma jsAdd_fin_posInf (a : ℝ) : jsAdd (.fin a) .posInf = .posInf := rfl

@[simp] lemma jsSub_fin_nan (a : ℝ) : jsSub (.fin a) .nan = .nan := rfl

@[simp] lemma jsMul_nan (z : JSNum) : jsMul .nan z = .nan := by
  cases z <;> rfl

@[simp] lemma jsMin_posInf_fin (b : ℝ) : jsMin .posInf (.fin b) = .fin b := rfl

/-! ## The force model of the latest Graph snapshot

Tuning constants as set in the constructor:
`this.repelForce = 10; this.linkForce = 1; this.linkDistance = 150;
 this.damping = 0.01;` (centerForce is not needed by any claim). -/

def repelForce : ℝ := 10
def linkForce : ℝ := 1
def linkDistance : ℝ := 150
def damping : ℝ := 1 / 100

/-- A node as seen by the force pass: a position and the pending-force
accumulators `nextX`/`nextY` (JS numbers, since NaN can reach them). -/
structure FNode where
  x : ℝ
  y : ℝ
  nextX : JSNum
  nextY : JSNum

/-- `dist(node1, node2)` (named distJS here to avoid clashing with the metric-space dist):
`Math.sqrt((node1.x - node2.x) ** 2 + (node1.y - node2.y) ** 2)`. -/
def distJS (node1 node2 : FNode) : JSNum :=
  jsSqrt (jsAdd (jsSq (jsSub (.fin node1.x) (.fin node2.x)))
                (jsSq (jsSub (.fin node1.y) (.fin node2.y))))

/-- The same distance as a plain real number (for stating theorems). -/
def distR (node1 node2 : FNode) : ℝ :=
  Real.sqrt ((node1.x - node2.x) ^ 2 + (node1.y - node2.y) ^ 2)

/-- `#calcDamping(force, damping = this.damping)`:
`Math.max(abs - damping * abs, 0) * sign`. -/
def calcDamping (force : JSNum) (d : JSNum := .fin damping) : JSNum :=
  jsMul (jsMax (jsSub (jsAbs force) (jsMul d (jsAbs force))) (.fin 0)) (jsSign force)

/-- `#forceDirection(node1, node2, force)`: damp the force, then decompose it
into x/y components with the Pythagorean rule
`Math.sqrt(force ** 2 / (1 + (rise / run) ** 2)) * Math.sign(run)` (and the
mirror-image expression for y).  There is no special case for
`rise = run = 0`. -/
def forceDirection (node1 node2 : FNode) (force0 : JSNum) : JSNum × JSNum :=
  let force := calcDamping force0
  let rise : JSNum := .fin (node2.y - node1.y)
  let run : JSNum := .fin (node2.x - node1.x)
  let xForce :=
    jsMul (jsSqrt (jsDiv (jsSq force) (jsAdd (.fin 1) (jsSq (jsDiv rise run))))) (jsSign run)
  let yForce :=
    jsMul (jsSqrt (jsDiv (jsSq force) (jsAdd (.fin 1) (jsSq (jsDiv run rise))))) (jsSign rise)
  (xForce, yForce)

/-- The spring force computed inside `#calcEdgeForce`:
`Math.min(this.linkDistance - edgeLength, 0) * 0.1 * this.linkForce ** 3`. -/
def edgeForce (node1 node2 : FNode) : JSNum :=
  jsMul (jsMul (jsMin (jsSub (.fin linkDistance) (distJS node1 node2)) (.fin 0)) (.fin (1 / 10)))
        (jsMul (jsMul (.fin linkForce) (.fin linkForce)) (.fin linkForce))

/-- `#calcEdgeForce(edge)`: accumulate the decomposed spring force, with
`node1.nextX += x; node2.nextX -= x` (and the same for y). -/
def calcEdgeForce (node1 node2 : FNode) : FNode × FNode :=
  let xy := forceDirection node1 node2 (edgeForce node1 node2)
  ({ node1 with nextX := jsAdd node1.nextX xy.1, nextY := jsAdd node1.nextY xy.2 },
   { node2 with nextX := jsSub node2.nextX xy.1, nextY := jsSub node2.nextY xy.2 })

/-- The repulsion force computed inside `#calcInternodeForce`:
`Math.min(this.repelForce * 2000 / (distance ** 2), 50)`. -/
def internodeForce (node1 node2 : FNode) : JSNum :=
  jsMin (jsDiv (jsMul (.fin repelForce) (.fin 2000)) (jsSq (distJS node1 node2))) (.fin 50)

/-- `#calcInternodeForce(node1, node2)`: accumulate the decomposed repulsion,
with `node1.nextX -= x; node2.nextX += x` (and the same for y). -/
def calcInternodeForce (node1 node2 : FNode) : FNode × FNode :=
  let xy := forceDirection node1 node2 (internodeForce node1 node2)
  ({ node1 with nextX := jsSub node1.nextX xy.1, nextY := jsSub node1.nextY xy.2 },
   { node2 with nextX := jsAdd node2.nextX xy.1, nextY := jsAdd node2.nextY xy.2 })

/-! ### Transfer lemmas: the JS computations on finite inputs -/

lemma dist_eq (node1 node2 : FNode) : distJS node1 node2 = .fin (distR node1 node2) := by
  have h : (0 : ℝ) ≤ (node1.x - node2.x) ^ 2 + (node1.y - node2.y) ^ 2 := by positivity
  simp only [distJS, jsSub_fin_fin, jsSq_fin, jsAdd_fin_fin]
  rw [show (node1.x - node2.x) * (node1.x - node2.x) + (node1.y - node2.y) * (node1.y - node2.y)
      = (node1.x - node2.x) ^ 2 + (node1.y - node2.y) ^ 2 from by ring, jsSqrt_fin_nonneg _ h]
  rfl

lemma calcDamping_fin (F : ℝ) : calcDamping (.fin F) = .fin (99 / 100 * F) := by
  have habs : |F| - damping * |F| = 99 / 100 * |F| := by
    rw [damping]; ring
  have hmax : max (99 / 100 * |F|) 0 = 99 / 100 * |F| := max_eq_left (by positivity)
  simp only [calcDamping, jsAbs_fin, jsMul_fin_fin, jsSub_fin_fin, jsMax_fin_fin, jsSign_fin,
    habs, hmax]
  rcases lt_trichotomy F 0 with hF | hF | hF
  · rw [Real.sign_of_neg hF, abs_of_neg hF]; ring_nf
  · subst hF; simp
  · rw [Real.sign_of_pos hF, abs_of_pos hF]; ring_nf

lemma sign_mul_self_eq_abs (x : ℝ) : Real.sign x * x = |x| := by
  rcases lt_trichotomy x 0 with hx | hx | hx
  · rw [Real.sign_of_neg hx, abs_of_neg hx]; ring
  · subst hx; simp
  · rw [Real.sign_of_pos hx, abs_of_pos hx]; ring

/-- One component of the Pythagorean decomposition
`Math.sqrt(c ** 2 / (1 + (num / den) ** 2)) * Math.sign(den)`, evaluated with
JS arithmetic.  Provided `num` and `den` do not both vanish, the component is
a finite value that is zero when `c = 0` or `den = 0`, and otherwise has the
sign of `den`. -/
lemma fdComponent (c num den : ℝ) (h : num ≠ 0 ∨ den ≠ 0) :
    ∃ d : ℝ,
      jsMul (jsSqrt (jsDiv (jsSq (JSNum.fin c))
          (jsAdd (JSNum.fin 1) (jsSq (jsDiv (JSNum.fin num) (JSNum.fin den))))))
        (jsSign (JSNum.fin den)) = JSNum.fin d
      ∧ (c = 0 → d = 0) ∧ (den = 0 → d = 0) ∧ (c ≠ 0 → den ≠ 0 → 0 < d * den)
  := by
  by_cases hden : den = 0
  · subst hden
    have hnum : num ≠ 0 := h.resolve_right (by simp)
    refine ⟨0, ?_, fun _ => rfl, fun _ => rfl, fun _ hd => absurd rfl hd⟩
    have hdiv : jsSq (jsDiv (JSNum.fin num) (JSNum.fin 0)) = JSNum.posInf := by
      rcases hnum.lt_or_lt with hn | hn
      · rw [jsDiv_fin_zero_neg _ hn]; rfl
      · rw [jsDiv_fin_zero_pos _ hn]; rfl
    rw [hdiv]
    rw [jsAdd_fin_posInf, jsSq_fin, jsDiv_fin_posInf, jsSqrt_fin_nonneg _ le_rfl,
      Real.sqrt_zero, jsSign_fin, Real.sign_zero, jsMul_fin_fin, mul_zero]
  · set q : ℝ := num / den with hq
    have hq2 : (0 : ℝ) ≤ q * q := mul_self_nonneg q
    have hdenom : (1 : ℝ) + q * q ≠ 0 := by nlinarith
    have harg : (0 : ℝ) ≤ c * c / (1 + q * q) :=
      div_nonneg (mul_self_nonneg c) (by nlinarith)
    refine ⟨Real.sqrt (c * c / (1 + q * q)) * Real.sign den, ?_, ?_, ?_, ?_⟩
    · rw [jsSq_fin, jsDiv_fin_fin _ _ hden, jsSq_fin, jsAdd_fin_fin,
        jsDiv_fin_fin _ _ hdenom, jsSqrt_fin_nonneg _ harg, jsSign_fin, jsMul_fin_fin]
    · intro hc; subst hc
      rw [zero_mul, zero_div, Real.sqrt_zero, zero_mul]
    · intro hd; exact absurd hd hden
    · intro hc _
      have hpos : 0 < Real.sqrt (c * c / (1 + q * q)) :=
        Real.sqrt_pos.mpr (div_pos (mul_self_pos.mpr hc) (by nlinarith))
      calc (0 : ℝ) < Real.sqrt (c * c / (1 + q * q)) * |den| :=
            mul_pos hpos (abs_pos.mpr hden)
        _ = Real.sqrt (c * c / (1 + q * q)) * Real.sign den * den := by
            rw [mul_assoc, sign_mul_self_eq_abs]

/-- `#forceDirection` on a finite force and two non-coincident endpoints
returns finite components; each component vanishes along a degenerate axis
and otherwise points from node1 toward node2 (the sign of the force's
magnitude is discarded by the square root). -/
lemma forceDirection_fin (node1 node2 : FNode) (F : ℝ)
    (h : node2.x - node1.x ≠ 0 ∨ node2.y - node1.y ≠ 0) :
    ∃ dx dy : ℝ,
      forceDirection node1 node2 (.fin F) = (.fin dx, .fin dy)
      ∧ (F = 0 → dx = 0 ∧ dy = 0)
      ∧ (node2.x - node1.x = 0 → dx = 0)
      ∧ (node2.y - node1.y = 0 → dy = 0)
      ∧ (F ≠ 0 → node2.x - node1.x ≠ 0 → 0 < dx * (node2.x - node1.x))
      ∧ (F ≠ 0 → node2.y - node1.y ≠ 0 → 0 < dy * (node2.y - node1.y))
  := by
  obtain ⟨dx, hdx, hdxc, hdxden, hdxpos⟩ :=
    fdComponent (99 / 100 * F) (node2.y - node1.y) (node2.x - node1.x) h.symm
  obtain ⟨dy, hdy, hdyc, hdyden, hdypos⟩ :=
    fdComponent (99 / 100 * F) (node2.x - node1.x) (node2.y - node1.y) h
  have hCne : F ≠ 0 → (99 / 100 * F) ≠ 0 := fun hF => mul_ne_zero (by norm_num) hF
  refine ⟨dx, dy, ?_, ?_, hdxden, hdyden,
    fun hF => hdxpos (hCne hF), fun hF => hdypos (hCne hF)⟩
  · simp only [forceDirection, calcDamping_fin]
    exact congrArg₂ Prod.mk hdx hdy
  · intro hF; subst hF
    exact ⟨hdxc (by norm_num), hdyc (by norm_num)⟩

lemma distR_pos_ne (a b : FNode) (h : 0 < distR a b) :
    b.x - a.x ≠ 0 ∨ b.y - a.y ≠ 0 := by
  by_contra hc
  push_neg at hc
  obtain ⟨h1, h2⟩ := hc
  have hx : a.x - b.x = 0 := by linarith [sub_eq_zero.mp h1]
  have hy : a.y - b.y = 0 := by linarith [sub_eq_zero.mp h2]
  rw [distR, hx, hy] at h
  norm_num at h

lemma edgeForce_eq (a b : FNode) :
    edgeForce a b
      = .fin (min (linkDistance - distR a b) 0 * (1 / 10)
          * (linkForce * linkForce * linkForce)) := by
  simp only [edgeForce, dist_eq, jsSub_fin_fin, jsMin_fin_fin, jsMul_fin_fin]

lemma internodeForce_eq (a b : FNode) (hd : distR a b ≠ 0) :
    internodeForce a b = .fin (min (repelForce * 2000 / distR a b ^ 2) 50) := by
  simp only [internodeForce, dist_eq, jsSq_fin, jsMul_fin_fin]
  rw [jsDiv_fin_fin _ _ (mul_ne_zero hd hd), ← pow_two, jsMin_fin_fin]

/-! ## Claim theorems about the force model -/

/-- C2: for every stored edge (arbitrary endpoint nodes), the spring force
magnitude computed by `#calcEdgeForce` equals
`min(linkDistance - length, 0)` scaled by the link-force coefficient
`0.1 * linkForce ** 3`; it is zero whenever the edge length is at most
`linkDistance` (and the decomposed components are then zero as well, for
non-coincident endpoints), and whenever the length exceeds `linkDistance`
the magnitude is negative and the accumulated contributions pull the two
endpoints toward each other with opposite signs — never apart. -/
theorem edge_spring_one_sided (a b : FNode) :
    edgeForce a b
      = .fin (min (linkDistance - distR a b) 0 * (1 / 10)
          * (linkForce * linkForce * linkForce))
    ∧ (distR a b ≤ linkDistance → edgeForce a b = .fin 0)
    ∧ (0 < distR a b → distR a b ≤ linkDistance →
        forceDirection a b (edgeForce a b) = (.fin 0, .fin 0))
    ∧ (linkDistance < distR a b →
        min (linkDistance - distR a b) 0 * (1 / 10)
            * (linkForce * linkForce * linkForce) < 0
        ∧ ∃ dx dy : ℝ,
            forceDirection a b (edgeForce a b) = (.fin dx, .fin dy)
            ∧ calcEdgeForce a b
                = ({ a with nextX := jsAdd a.nextX (.fin dx),
                            nextY := jsAdd a.nextY (.fin dy) },
                   { b with nextX := jsSub b.nextX (.fin dx),
                            nextY := jsSub b.nextY (.fin dy) })
            ∧ (b.x - a.x = 0 → dx = 0) ∧ (b.x - a.x ≠ 0 → 0 < dx * (b.x - a.x))
            ∧ (b.y - a.y = 0 → dy = 0) ∧ (b.y - a.y ≠ 0 → 0 < dy * (b.y - a.y)))
  := by
  have hF := edgeForce_eq a b
  have hzero : distR a b ≤ linkDistance → edgeForce a b = .fin 0 := by
    intro hL
    rw [hF, min_eq_right (by linarith)]
    norm_num
  refine ⟨hF, hzero, ?_, ?_⟩
  · intro hLpos hL
    rw [hzero hL]
    obtain ⟨dx, dy, hfd, h0, _, _, _, _⟩ :=
      forceDirection_fin a b 0 (distR_pos_ne a b hLpos)
    obtain ⟨hdx, hdy⟩ := h0 rfl
    rw [hfd, hdx, hdy]
  · intro hL
    have hmin : min (linkDistance - distR a b) 0 = linkDistance - distR a b :=
      min_eq_left (by linarith)
    have hmag : min (linkDistance - distR a b) 0 * (1 / 10)
        * (linkForce * linkForce * linkForce) < 0 := by
      rw [hmin, linkForce]
      nlinarith
    refine ⟨hmag, ?_⟩
    have hne : b.x - a.x ≠ 0 ∨ b.y - a.y ≠ 0 := by
      refine distR_pos_ne a b (lt_trans ?_ hL)
      rw [linkDistance]; norm_num
    obtain ⟨dx, dy, hfd, _, hdxz, hdyz, hdxp, hdyp⟩ :=
      forceDirection_fin a b
        (min (linkDistance - distR a b) 0 * (1 / 10)
          * (linkForce * linkForce * linkForce)) hne
    have hfd' : forceDirection a b (edgeForce a b) = (.fin dx, .fin dy) := by
      rw [hF]; exact hfd
    refine ⟨dx, dy, hfd', ?_, hdxz, hdxp (ne_of_lt hmag), hdyz, hdyp (ne_of_lt hmag)⟩
    simp only [calcEdgeForce, hfd']

def springA : FNode := { x := 0, y := 0, nextX := .fin 0, nextY := .fin 0 }
def springB : FNode := { x := 200, y := 0, nextX := .fin 0, nextY := .fin 0 }

/-- Witness for C2: two edge endpoints 200 apart (beyond `linkDistance = 150`)
engage the one-sided spring. -/
theorem edge_spring_one_sided_witness :
    linkDistance < distR springA springB
    ∧ (min (linkDistance - distR springA springB) 0 * (1 / 10)
          * (linkForce * linkForce * linkForce) < 0
       ∧ ∃ dx dy : ℝ,
           forceDirection springA springB (edgeForce springA springB) = (.fin dx, .fin dy)
           ∧ calcEdgeForce springA springB
               = ({ springA with nextX := jsAdd springA.nextX (.fin dx),
                                 nextY := jsAdd springA.nextY (.fin dy) },
                  { springB with nextX := jsSub springB.nextX (.fin dx),
                                 nextY := jsSub springB.nextY (.fin dy) })
           ∧ (springB.x - springA.x = 0 → dx = 0)
           ∧ (springB.x - springA.x ≠ 0 → 0 < dx * (springB.x - springA.x))
           ∧ (springB.y - springA.y = 0 → dy = 0)
           ∧ (springB.y - springA.y ≠ 0 → 0 < dy * (springB.y - springA.y)))
  := by
  have hsq : ((springA.x - springB.x) ^ 2 + (springA.y - springB.y) ^ 2 : ℝ)
      = 200 ^ 2 := by
    norm_num [springA, springB]
  have hd : distR springA springB = 200 := by
    rw [distR, hsq, Real.sqrt_sq (by norm_num : (0 : ℝ) ≤ 200)]
  have hgt : linkDistance < distR springA springB := by
    rw [hd, linkDistance]; norm_num
  exact ⟨hgt, (edge_spring_one_sided springA springB).2.2.2 hgt⟩

/-- Repulsion magnitude as claim C5 states it (spec rendition): the distance
is first reduced by both nodes' radii. -/
def specRepelMagnitude (d r1 r2 : ℝ) : ℝ :=
  min (repelForce * 2000 / (d - r1 - r2) ^ 2) 50

def repelA : FNode := { x := 0, y := 0, nextX := .fin 0, nextY := .fin 0 }
def repelB : FNode := { x := 100, y := 0, nextX := .fin 0, nextY := .fin 0 }

/-- C5 counterexample: two nodes of the default radius 10, 100 apart.  The
code computes `min(10 * 2000 / 100², 50) = 2`, while the claimed formula with
the radius-reduced distance gives `min(10 * 2000 / 80², 50) = 25/8`. -/
theorem repel_radius_reduction_refuted :
    distR repelA repelB = 100
    ∧ internodeForce repelA repelB = .fin 2
    ∧ specRepelMagnitude (distR repelA repelB) 10 10 = 25 / 8
    ∧ (2 : ℝ) ≠ 25 / 8 := by
  have hsq : ((repelA.x - repelB.x) ^ 2 + (repelA.y - repelB.y) ^ 2 : ℝ)
      = 100 ^ 2 := by
    norm_num [repelA, repelB]
  have hd : distR repelA repelB = 100 := by
    rw [distR, hsq, Real.sqrt_sq (by norm_num : (0 : ℝ) ≤ 100)]
  refine ⟨hd, ?_, ?_, by norm_num⟩
  · rw [internodeForce_eq _ _ (by rw [hd]; norm_num), hd, repelForce,
      show (10 : ℝ) * 2000 / 100 ^ 2 = 2 by norm_num,
      min_eq_left (by norm_num : (2 : ℝ) ≤ 50)]
  · rw [hd, specRepelMagnitude, repelForce,
      show (100 : ℝ) - 10 - 10 = 80 by norm_num,
      show (10 : ℝ) * 2000 / 80 ^ 2 = 25 / 8 by norm_num,
      min_eq_left (by norm_num : (25 / 8 : ℝ) ≤ 50)]

/-- C5 amended: for every pair of distinct nodes, the repulsion magnitude is
`min(repelForce * 2000 / d², 50)` where `d` is the plain center-to-center
distance (no radius reduction); it is positive, and `#calcInternodeForce`
writes opposite-signed contributions that push the pair apart
(`node1 -=`, `node2 +=` of a vector that points from node1 toward node2). -/
theorem repel_plain_distance_capped (a b : FNode) (hd : 0 < distR a b) :
    internodeForce a b = .fin (min (repelForce * 2000 / distR a b ^ 2) 50)
    ∧ 0 < min (repelForce * 2000 / distR a b ^ 2) 50
    ∧ ∃ dx dy : ℝ,
        forceDirection a b (internodeForce a b) = (.fin dx, .fin dy)
        ∧ calcInternodeForce a b
            = ({ a with nextX := jsSub a.nextX (.fin dx),
                        nextY := jsSub a.nextY (.fin dy) },
               { b with nextX := jsAdd b.nextX (.fin dx),
                        nextY := jsAdd b.nextY (.fin dy) })
        ∧ (b.x - a.x = 0 → dx = 0) ∧ (b.x - a.x ≠ 0 → 0 < dx * (b.x - a.x))
        ∧ (b.y - a.y = 0 → dy = 0) ∧ (b.y - a.y ≠ 0 → 0 < dy * (b.y - a.y))
  := by
  have hIF := internodeForce_eq a b (ne_of_gt hd)
  have hpos : 0 < min (repelForce * 2000 / distR a b ^ 2) 50 := by
    refine lt_min ?_ (by norm_num)
    exact div_pos (by rw [repelForce]; norm_num) (pow_pos hd 2)
  obtain ⟨dx, dy, hfd, _, hdxz, hdyz, hdxp, hdyp⟩ :=
    forceDirection_fin a b (min (repelForce * 2000 / distR a b ^ 2) 50)
      (distR_pos_ne a b hd)
  have hfd' : forceDirection a b (internodeForce a b) = (.fin dx, .fin dy) := by
    rw [hIF]; exact hfd
  refine ⟨hIF, hpos, dx, dy, hfd', ?_, hdxz, hdxp (ne_of_gt hpos), hdyz,
    hdyp (ne_of_gt hpos)⟩
  simp only [calcInternodeForce, hfd']

/-- Witness for the amended C5 at the concrete pair 100 apart. -/
theorem repel_plain_distance_capped_witness :
    0 < distR repelA repelB
    ∧ (internodeForce repelA repelB
        = .fin (min (repelForce * 2000 / distR repelA repelB ^ 2) 50)
      ∧ 0 < min (repelForce * 2000 / distR repelA repelB ^ 2) 50
      ∧ ∃ dx dy : ℝ,
          forceDirection repelA repelB (internodeForce repelA repelB)
            = (.fin dx, .fin dy)
          ∧ calcInternodeForce repelA repelB
              = ({ repelA with nextX := jsSub repelA.nextX (.fin dx),
                               nextY := jsSub repelA.nextY (.fin dy) },
                 { repelB with nextX := jsAdd repelB.nextX (.fin dx),
                               nextY := jsAdd repelB.nextY (.fin dy) })
          ∧ (repelB.x - repelA.x = 0 → dx = 0)
          ∧ (repelB.x - repelA.x ≠ 0 → 0 < dx * (repelB.x - repelA.x))
          ∧ (repelB.y - repelA.y = 0 → dy = 0)
          ∧ (repelB.y - repelA.y ≠ 0 → 0 < dy * (repelB.y - repelA.y)))
  := by
  have hsq : ((repelA.x - repelB.x) ^ 2 + (repelA.y - repelB.y) ^ 2 : ℝ)
      = 100 ^ 2 := by
    norm_num [repelA, repelB]
  have hp : 0 < distR repelA repelB := by
    rw [distR, hsq, Real.sqrt_sq (by norm_num : (0 : ℝ) ≤ 100)]
    norm_num
  exact ⟨hp, repel_plain_distance_capped repelA repelB hp⟩

def coincNode : FNode := { x := 100, y := 100, nextX := .fin 0, nextY := .fin 0 }

/-- C3 failing input: two force-interacting points that coincide exactly.
`#forceDirection` computes `rise / run = 0 / 0 = NaN`, so both decomposed
components are NaN (not zero), and `#calcInternodeForce` writes NaN into both
nodes' pending accumulators. -/
theorem coincident_direction_nan :
    forceDirection coincNode coincNode (.fin 50) = (.nan, .nan)
    ∧ internodeForce coincNode coincNode = .fin 50
    ∧ calcInternodeForce coincNode coincNode
        = ({ coincNode with nextX := .nan, nextY := .nan },
           { coincNode with nextX := .nan, nextY := .nan }) := by
  have hfdgen : ∀ F : ℝ, forceDirection coincNode coincNode (.fin F) = (.nan, .nan) := by
    intro F
    simp only [forceDirection, calcDamping_fin, sub_self, jsDiv_zero_zero, jsSq_nan,
      jsSq_fin, jsAdd_fin_nan, jsDiv_fin_nan, jsSqrt_nan, jsSign_fin, Real.sign_zero,
      jsMul_nan]
  have hIF : internodeForce coincNode coincNode = .fin 50 := by
    have hd0 : distR coincNode coincNode = 0 := by
      rw [distR, sub_self, sub_self]
      norm_num
    simp only [internodeForce, dist_eq, hd0, jsSq_fin, jsMul_fin_fin, mul_zero]
    rw [jsDiv_fin_zero_pos _ (by rw [repelForce]; norm_num), jsMin_posInf_fin]
  have hfd' : forceDirection coincNode coincNode (internodeForce coincNode coincNode)
      = (.nan, .nan) := by
    rw [hIF]; exact hfdgen 50
  refine ⟨hfdgen 50, hIF, ?_⟩
  simp only [calcInternodeForce, hfd']
  simp [coincNode]

end

/-! ## The force-apply phase of #updatePositions (exact rational model)

The apply loop runs once per node per frame:
```
const x = (node.nextX + node.lastX) / 2;
const y = (node.nextY + node.lastY) / 2;
if (this.#canApplyForces(node)) {
  node.x += Math.round(x * 100) / 100;
  node.y += Math.round(y * 100) / 100;
}
node.lastX = x;  node.lastY = y;
node.nextX = 0;  node.nextY = 0;
```
All operations are exact on rationals, so the node state is modelled over ℚ
(the accumulators are assumed finite; the NaN pathology of claim C3 is
modelled separately above). -/

/-- A node as seen by the apply phase. -/
structure UNode where
  x : ℚ
  y : ℚ
  nextX : ℚ
  nextY : ℚ
  lastX : ℚ
  lastY : ℚ
deriving DecidableEq

/-- `Math.round` (round half toward positive infinity). -/
def jsRound (q : ℚ) : ℚ := ((⌊q + 1 / 2⌋ : ℤ) : ℚ)

/-- `Math.round(q * 100) / 100` — rounding to 2 decimal places. -/
def roundTo2 (q : ℚ) : ℚ := jsRound (q * 100) / 100

/-- `#canApplyForces(node)`: `node !== this.draggedNode`, as a function of
whether this node is the dragged one. -/
def canApplyForces (isDragged : Bool) : Bool := !isDragged

/-- One iteration of the apply loop for one node. -/
def applyStep (isDragged : Bool) (node : UNode) : UNode :=
  let x := (node.nextX + node.lastX) / 2
  let y := (node.nextY + node.lastY) / 2
  let moved :=
    if canApplyForces isDragged then
      { node with x := node.x + roundTo2 x, y := node.y + roundTo2 y }
    else node
  { moved with lastX := x, lastY := y, nextX := 0, nextY := 0 }

/-- C1: for a node that is not the dragged node, one frame-advance adds to
its position `appliedX = (nextX + lastX) / 2` rounded to 2 decimal places
(likewise for y), stores the averaged delta as `lastX`/`lastY` for the next
frame, and resets the accumulators to zero. -/
theorem apply_smoothing_non_dragged (node : UNode) :
    applyStep false node =
      { x := node.x + roundTo2 ((node.nextX + node.lastX) / 2),
        y := node.y + roundTo2 ((node.nextY + node.lastY) / 2),
        nextX := 0, nextY := 0,
        lastX := (node.nextX + node.lastX) / 2,
        lastY := (node.nextY + node.lastY) / 2 } := rfl

def dragNode : UNode := { x := 5, y := 7, nextX := 4, nextY := 2, lastX := 6, lastY := 8 }

/-- C4 counterexample: while a node is dragged, its position is indeed left
unchanged, but `lastX`/`lastY` are NOT reset to zero — they receive the
averaged value `(nextX + lastX) / 2 = 5 ≠ 0` (and `(2 + 8) / 2 = 5 ≠ 0`). -/
theorem dragged_lastx_not_reset :
    (applyStep true dragNode).x = 5 ∧ (applyStep true dragNode).y = 7
    ∧ (applyStep true dragNode).lastX = 5 ∧ (applyStep true dragNode).lastY = 5
    ∧ (5 : ℚ) ≠ 0 := by
  norm_num [applyStep, dragNode, canApplyForces]

/-- C4 amended: for the dragged node the apply phase skips the position
update entirely, resets the accumulators, and stores the same averaged value
`(nextX + lastX) / 2` in `lastX`/`lastY` as it would for any other node
(they are not reset to zero). -/
theorem dragged_skip_apply (node : UNode) :
    applyStep true node =
      { x := node.x, y := node.y, nextX := 0, nextY := 0,
        lastX := (node.nextX + node.lastX) / 2,
        lastY := (node.nextY + node.lastY) / 2 } := rfl

/-! ## Hover hit-testing in #mouseMove (exact rational model)

```
if (this.draggedNode !== null) { ...; return; }
else if (this.dragging === true) { ...; return; }
this.hoveredNode = null;
for (const node of this.nodes) {
  if (Math.abs(node.x - x) < 10 && Math.abs(node.y - y) < 10) {
    this.hoveredNode = node;
    break;
  }
}
```
The pointer position `(x, y)` is already converted to simulation space by
`#canvasCoords`. -/

/-- A node as seen by the hit test: position, radius/size, id. -/
structure HNode where
  x : ℚ
  y : ℚ
  size : ℚ
  id : ℤ
deriving DecidableEq

/-- The per-node hit test of the hover loop: an axis-aligned box of fixed
half-side 10 around the node's center (`node.size` is not consulted). -/
def hitTest (px py : ℚ) (node : HNode) : Bool :=
  decide (|node.x - px| < 10) && decide (|node.y - py| < 10)

/-- The hover scan: first node (in store order) whose box contains the
pointer, mirroring the for-loop with `break`. -/
def hoverLoop (px py : ℚ) : List HNode → Option HNode
  | [] => none
  | node :: rest => if hitTest px py node then some node else hoverLoop px py rest

/-- The hover-relevant effect of `#mouseMove`: with an active drag the
handler returns before touching `hoveredNode`; with an active pan likewise;
otherwise `hoveredNode` is recomputed by the scan. -/
def mouseMoveHover (dragged : Option HNode) (dragging : Bool)
    (hovered : Option HNode) (nodes : List HNode) (px py : ℚ) : Option HNode :=
  if dragged.isSome then hovered
  else if dragging then hovered
  else hoverLoop px py nodes

/-- The hover criterion as claim C6 states it (spec rendition): the pointer
lies within the node's radius of the node's center — stated with squared
distances, which is equivalent for nonnegative radii and avoids a square
root. -/
def specHoverWithinRadius (px py : ℚ) (node : HNode) : Prop :=
  (node.x - px) ^ 2 + (node.y - py) ^ 2 < node.size ^ 2

def boxNode : HNode := { x := 0, y := 0, size := 5, id := 0 }

/-- C6 counterexample: a node of radius 5 at the origin and a pointer at
(8, 8).  The Euclidean distance is √128 ≈ 11.3, outside the radius (and even
outside radius 10), yet the code hovers the node because the test is the
axis-aligned box `|dx| < 10 ∧ |dy| < 10`. -/
theorem hover_not_within_radius :
    mouseMoveHover none false none [boxNode] 8 8 = some boxNode
    ∧ ¬ specHoverWithinRadius 8 8 boxNode := by
  constructor
  · norm_num [mouseMoveHover, hoverLoop, hitTest, boxNode]
  · norm_num [specHoverWithinRadius, boxNode]

lemma hoverLoop_cons_pos (px py : ℚ) (head : HNode) (rest : List HNode)
    (h : hitTest px py head = true) :
    hoverLoop px py (head :: rest) = some head := by
  simp [hoverLoop, h]

lemma hoverLoop_cons_neg (px py : ℚ) (head : HNode) (rest : List HNode)
    (h : hitTest px py head = false) :
    hoverLoop px py (head :: rest) = hoverLoop px py rest := by
  simp [hoverLoop, h]

/-- C6 amended: on a pointer-move with no active drag and no active pan, the
new hovered node is exactly the result of the scan, and the scan returns
`some node` precisely when `node` is the first node in store (creation)
order whose fixed 10-by-10 box around its center strictly contains the
pointer; at most one node is hovered (the scan returns at most one). -/
theorem hover_box_first_match (hovered : Option HNode) (nodes : List HNode) (px py : ℚ) :
    mouseMoveHover none false hovered nodes px py = hoverLoop px py nodes
    ∧ ∀ node : HNode,
        (hoverLoop px py nodes = some node ↔
          ∃ l1 l2, nodes = l1 ++ node :: l2 ∧ hitTest px py node = true
            ∧ ∀ m ∈ l1, hitTest px py m = false) := by
  refine ⟨rfl, ?_⟩
  intro node
  induction nodes with
  | nil =>
    constructor
    · intro h; simp [hoverLoop] at h
    · rintro ⟨l1, l2, h, -, -⟩
      cases l1 <;> simp at h
  | cons head tail ih =>
    cases hh : hitTest px py head with
    | false =>
      rw [hoverLoop_cons_neg _ _ _ _ hh, ih]
      constructor
      · rintro ⟨l1, l2, heq, hhit, hmiss⟩
        refine ⟨head :: l1, l2, by rw [List.cons_append, heq], hhit, ?_⟩
        intro m hm
        rcases List.mem_cons.mp hm with rfl | hm2
        · exact hh
        · exact hmiss m hm2
      · rintro ⟨l1, l2, heq, hhit, hmiss⟩
        cases l1 with
        | nil =>
          simp only [List.nil_append] at heq
          injection heq with h1 h2
          rw [h1] at hh
          rw [hhit] at hh
          exact Bool.noConfusion hh
        | cons a l1 =>
          simp only [List.cons_append] at heq
          injection heq with h1 h2
          exact ⟨l1, l2, h2, hhit, fun m hm => hmiss m (by simp [hm])⟩
    | true =>
      rw [hoverLoop_cons_pos _ _ _ _ hh]
      constructor
      · intro h
        obtain rfl : head = node := by injection h
        exact ⟨[], tail, rfl, hh, by simp⟩
      · rintro ⟨l1, l2, heq, hhit, hmiss⟩
        cases l1 with
        | nil =>
          simp only [List.nil_append] at heq
          injection heq with h1 h2
          rw [h1]
        | cons a l1 =>
          simp only [List.cons_append] at heq
          injection heq with h1 h2
          have hfalse := hmiss a (by simp)
          rw [← h1, hh] at hfalse
          exact Bool.noConfusion hfalse

def boxNodeB : HNode := { x := 3, y := 3, size := 5, id := 1 }

/-- Witness for the amended C6 on a concrete two-node store. -/
theorem hover_box_first_match_witness :
    mouseMoveHover none false none [boxNode, boxNodeB] 8 8
        = hoverLoop 8 8 [boxNode, boxNodeB]
    ∧ (hoverLoop 8 8 [boxNode, boxNodeB] = some boxNode ↔
        ∃ l1 l2, [boxNode, boxNodeB] = l1 ++ boxNode :: l2
          ∧ hitTest 8 8 boxNode = true ∧ ∀ m ∈ l1, hitTest 8 8 m = false) :=
  ⟨(hover_box_first_match none [boxNode, boxNodeB] 8 8).1,
   (hover_box_first_match none [boxNode, boxNodeB] 8 8).2 boxNode⟩

/-! ## newEdge validation (exact model)

```
newEdge(edge) {
  if (edge.length !== 2 || !Number.isInteger(edge[0]) || !Number.isInteger(edge[1])
    || edge[0] >= this.nextID || edge[1] >= this.nextID) {
    throw new Error('Error creating new edge: invalid edge.');
  }
  this.edges.push(edge);
}
```
Edges are arrays of numbers; ids are modelled as rationals so that the
`Number.isInteger` check is meaningful.  A thrown error is `Except.error`;
the store is returned unchanged only through the error (the push never runs
on the error path). -/

/-- `Number.isInteger`. -/
def jsIsInteger (q : ℚ) : Bool := q.den == 1

/-- `newEdge` on a store with `nextID` ids handed out so far. -/
def newEdge (nextID : ℤ) (edges : List (List ℚ)) (edge : List ℚ) :
    Except String (List (List ℚ)) :=
  match edge with
  | [a, b] =>
    if !jsIsInteger a || !jsIsInteger b
        || decide ((nextID : ℚ) ≤ a) || decide ((nextID : ℚ) ≤ b) then
      .error "Error creating new edge: invalid edge."
    else
      .ok (edges ++ [[a, b]])
  | _ => .error "Error creating new edge: invalid edge."

/-- C7 counterexample: on a two-node graph, inserting the pair (0, 1) twice
stores it twice — the edge list has length 2 after the second call, not the
length 1 that set semantics would give. -/
theorem duplicate_edge_grows :
    newEdge 2 [] [0, 1] = .ok [[0, 1]]
    ∧ newEdge 2 [[0, 1]] [0, 1] = .ok [[0, 1], [0, 1]]
    ∧ ¬ ([[0, 1], [0, 1]] : List (List ℚ)).length = ([[0, 1]] : List (List ℚ)).length := by
  refine ⟨?_, ?_, by simp⟩ <;>
    norm_num [newEdge, jsIsInteger]

/-- C7 amended: `newEdge` does no duplicate suppression.  Every call with
two integer ids below `nextID` succeeds and appends, so creating the same
unordered pair twice (in either endpoint order) grows the edge collection by
two, while creating it once grows it by one. -/
theorem edge_append_no_dedup (nextID : ℤ) (edges : List (List ℚ)) (a b : ℚ)
    (ha : jsIsInteger a = true) (hb : jsIsInteger b = true)
    (ha2 : a < (nextID : ℚ)) (hb2 : b < (nextID : ℚ)) :
    newEdge nextID edges [a, b] = .ok (edges ++ [[a, b]])
    ∧ newEdge nextID (edges ++ [[a, b]]) [b, a] = .ok (edges ++ [[a, b], [b, a]])
    ∧ (edges ++ [[a, b], [b, a]]).length = edges.length + 2
    ∧ (edges ++ [[a, b]]).length = edges.length + 1 := by
  have hna : decide ((nextID : ℚ) ≤ a) = false := decide_eq_false (not_le.mpr ha2)
  have hnb : decide ((nextID : ℚ) ≤ b) = false := decide_eq_false (not_le.mpr hb2)
  refine ⟨?_, ?_, by simp, by simp⟩
  · simp [newEdge, ha, hb, hna, hnb]
  · simp [newEdge, ha, hb, hna, hnb]

/-- Witness for the amended C7 at the concrete pair (0, 2) on a three-node
graph. -/
theorem edge_append_no_dedup_witness :
    newEdge 3 [] [0, 2] = .ok ([] ++ [[(0 : ℚ), 2]])
    ∧ newEdge 3 ([] ++ [[(0 : ℚ), 2]]) [2, 0] = .ok ([] ++ [[(0 : ℚ), 2], [2, 0]])
    ∧ (([] : List (List ℚ)) ++ [[(0 : ℚ), 2], [2, 0]]).length
        = ([] : List (List ℚ)).length + 2
    ∧ (([] : List (List ℚ)) ++ [[(0 : ℚ), 2]]).length
        = ([] : List (List ℚ)).length + 1 :=
  edge_append_no_dedup 3 [] 0 2 rfl rfl (by norm_num) (by norm_num)

/-- C8 failing input: `newEdge([-1, 0])` on a one-node graph.  The id −1 is
an integer and is not `>= nextID`, so the lower bound is never checked: the
call succeeds and stores an edge whose endpoint references no existing node
(node ids are the nonnegative integers below `nextID`). -/
theorem negative_id_edge_accepted :
    newEdge 1 [] [-1, 0] = .ok [[-1, 0]]
    ∧ jsIsInteger (-1) = true
    ∧ ((-1 : ℚ) < 0) := by
  refine ⟨?_, rfl, by norm_num⟩
  norm_num [newEdge, jsIsInteger]

/-! ## Zoom persistence at construction (C9)

```
this.scale = isNaN(localStorage.getItem('scale')) ? 1 : parseFloat(localStorage.getItem('scale'));
```
`localStorage.getItem` returns a string or null (modelled as `Option
String`).  Global `isNaN` coerces its argument with ToNumber — and
`Number(null) = 0`, so `isNaN(null)` is false.  `parseFloat` first converts
its argument to a string — `String(null) = "null"` — and then parses the
longest numeric prefix, yielding NaN when there is none.  The two JS string
builtins are modelled below on their plain-decimal fragment (optional sign,
digits, optional fraction; exponents and the Infinity forms are outside the
fragment and are not needed by any input considered here).  A NaN number is
modelled as `none : Option ℚ`. -/

/-- JS whitespace (the fragment that matters here). -/
def isWS (c : Char) : Bool := c == ' ' || c == '\t' || c == '\n' || c == '\r'

/-- Value of a digit string (most significant first). -/
def digitsVal (ds : List Char) : ℕ :=
  ds.foldl (fun acc c => 10 * acc + (c.toNat - 48)) 0

/-- Value of a fraction-digit string (digits after the decimal point). -/
def fracVal (ds : List Char) : ℚ :=
  (digitsVal ds : ℚ) / (10 : ℚ) ^ ds.length

/-- Scan an unsigned decimal numeral at the head of the input; return its
value and the unconsumed rest, or `none` if no numeral starts here. -/
def scanUnsigned (l : List Char) : Option (ℚ × List Char) :=
  let p := l.span Char.isDigit
  match p.1, p.2 with
  | [], '.' :: r2 =>
    let q := r2.span Char.isDigit
    match q.1 with
    | [] => none
    | fs => some (fracVal fs, q.2)
  | [], _ => none
  | ds, '.' :: r2 =>
    let q := r2.span Char.isDigit
    some ((digitsVal ds : ℚ) + fracVal q.1, q.2)
  | ds, r => some ((digitsVal ds : ℚ), r)

/-- Scan an optionally signed decimal numeral. -/
def scanSigned (l : List Char) : Option (ℚ × List Char) :=
  match l with
  | '+' :: r => scanUnsigned r
  | '-' :: r => (scanUnsigned r).map (fun p => (-p.1, p.2))
  | _ => scanUnsigned l

/-- Model of the JS builtin `parseFloat` on the decimal fragment: skip
leading whitespace, take the longest numeric prefix, NaN if none. -/
def jsParseFloat (s : String) : Option ℚ :=
  (scanSigned (s.toList.dropWhile isWS)).map (fun p => p.1)

/-- Model of JS ToNumber on strings (the decimal fragment): trim whitespace
on both sides; empty means 0; otherwise the whole trimmed string must be a
signed decimal numeral, else NaN. -/
def jsStringToNumber (s : String) : Option ℚ :=
  let l := s.toList.dropWhile isWS
  let l2 := (l.reverse.dropWhile isWS).reverse
  match l2 with
  | [] => some 0
  | _ =>
    match scanSigned l2 with
    | some (q, []) => some q
    | _ => none

/-- The scale restored by the constructor when zoom persistence is enabled:
`isNaN(item) ? 1 : parseFloat(item)` where `item` is the persisted value or
null. -/
def constructorScale (stored : Option String) : Option ℚ :=
  let coerced : Option ℚ :=
    match stored with
    | none => some 0
    | some s => jsStringToNumber s
  if coerced.isNone then some 1
  else
    match stored with
    | none => jsParseFloat "null"
    | some s => jsParseFloat s

/-- C9 failing input: an absent persisted scale.  `isNaN(null)` is false
(ToNumber(null) = 0), so the code takes `parseFloat(null)`, which parses the
string "null" and yields NaN — the scale becomes NaN, not the default 1.
A parseable decimal string and a non-numeric string behave as the claim
says. -/
theorem absent_scale_gives_nan :
    constructorScale none = none
    ∧ constructorScale (some "2.5") = some (5 / 2)
    ∧ constructorScale (some "abc") = some 1 := by
  refine ⟨rfl, ?_, rfl⟩
  show jsParseFloat "2.5" = some (5 / 2)
  have h1 : jsParseFloat "2.5" = some ((digitsVal ['2'] : ℚ) + fracVal ['5']) := rfl
  have h2 : digitsVal ['2'] = 2 := rfl
  have h3 : digitsVal ['5'] = 5 := rfl
  rw [h1, fracVal, h2, h3]
  norm_num

/-! ## Node store: newNode and the id-equals-index invariant (C10)

```
newNode({ label = 'test', size = 10, color = 'default' } = {}) {
  this.nodes.push({ label, size, color, id: this.nextID,
    x: Graph.rand(...), y: Graph.rand(...),
    nextX: 0, nextY: 0, lastX: 0, lastY: 0 });
  this.nextID++;
}
```
`Graph.rand` is random; its two results are passed in as parameters `rx`,
`ry`.  The constructor starts from `nextID = 0`, `nodes = []`, `edges = []`
and the only mutators of the two stores are `newNode` and `newEdge`. -/

/-- A stored node exactly as `newNode` pushes it. -/
structure VNode where
  label : String
  size : ℚ
  color : String
  id : ℤ
  x : ℚ
  y : ℚ
  nextX : ℚ
  nextY : ℚ
  lastX : ℚ
  lastY : ℚ

/-- The mutable store of a Graph instance. -/
structure GraphState where
  nextID : ℤ
  nodes : List VNode
  edges : List (List ℚ)

/-- The node record `newNode` pushes, given the id it will carry and the two
`Graph.rand` results. -/
def freshNode (nid : ℤ) (label : String) (size : ℚ) (color : String)
    (rx ry : ℚ) : VNode :=
  { label := label, size := size, color := color, id := nid, x := rx, y := ry,
    nextX := 0, nextY := 0, lastX := 0, lastY := 0 }

/-- `newNode`: push a node with `id = nextID`, then increment `nextID`. -/
def newNode (g : GraphState) (label : String) (size : ℚ) (color : String)
    (rx ry : ℚ) : GraphState :=
  { g with
    nodes := g.nodes ++ [freshNode g.nextID label size color rx ry],
    nextID := g.nextID + 1 }

/-- `newEdge` at graph level: on success the validated edge is appended; a
thrown error leaves the state unchanged. -/
def newEdgeG (g : GraphState) (edge : List ℚ) : GraphState :=
  match newEdge g.nextID g.edges edge with
  | .ok es => { g with edges := es }
  | .error _ => g

/-- The store as the constructor initializes it. -/
def initialGraph : GraphState := { nextID := 0, nodes := [], edges := [] }

/-- States reachable through the mutation API. -/
inductive Reachable : GraphState → Prop where
  | init : Reachable initialGraph
  | node (g : GraphState) (label : String) (size : ℚ) (color : String)
      (rx ry : ℚ) : Reachable g → Reachable (newNode g label size color rx ry)
  | edge (g : GraphState) (e : List ℚ) : Reachable g → Reachable (newEdgeG g e)

/-- C10: in every reachable store, `nextID` equals the node count and every
node's id equals its index in the array (so resolving an endpoint id by
direct array indexing, as `#calcEdgeForce`/render do with
`this.nodes[edge[0]]`, finds the node with that id); consequently `newNode`
always appends a node whose id is the current array length and increments
the counter. -/
theorem id_equals_index (g : GraphState) (h : Reachable g) :
    (g.nextID = g.nodes.length)
    ∧ (∀ i : Fin g.nodes.length, (g.nodes.get i).id = (i.val : ℤ))
    ∧ (∀ label size color rx ry,
        (newNode g label size color rx ry).nextID = g.nextID + 1
        ∧ (newNode g label size color rx ry).nodes
            = g.nodes ++ [freshNode (g.nodes.length : ℤ) label size color rx ry]) := by
  have main : g.nextID = g.nodes.length
      ∧ ∀ i : Fin g.nodes.length, (g.nodes.get i).id = (i.val : ℤ) := by
    induction h with
    | init =>
      exact ⟨rfl, fun i => absurd i.isLt (by simp [initialGraph])⟩
    | node g label size color rx ry hg ih =>
      obtain ⟨hlen, hids⟩ := ih
      constructor
      · simp [newNode, hlen]
      · intro i
        have hi := i.isLt
        simp only [newNode, List.length_append, List.length_cons,
          List.length_nil] at hi
        by_cases hlt : i.val < g.nodes.length
        · have : (newNode g label size color rx ry).nodes.get i
              = g.nodes.get ⟨i.val, hlt⟩ := by
            simp [newNode, List.getElem_append_left, hlt]
          rw [this]
          exact hids ⟨i.val, hlt⟩
        · have hival : i.val = g.nodes.length := by omega
          have : (newNode g label size color rx ry).nodes.get i
              = freshNode g.nextID label size color rx ry := by
            simp [newNode, List.getElem_append_right, hival]
          rw [this, hival, hlen]
          rfl
    | edge g e hg ih =>
      obtain ⟨hlen, hids⟩ := ih
      have hsplit : ∃ es2, newEdgeG g e
          = { nextID := g.nextID, nodes := g.nodes, edges := es2 } := by
        rw [newEdgeG]
        cases newEdge g.nextID g.edges e with
        | ok es => exact ⟨es, rfl⟩
        | error m => exact ⟨g.edges, rfl⟩
      obtain ⟨es2, hg2⟩ := hsplit
      rw [hg2]
      exact ⟨hlen, hids⟩
  obtain ⟨hlen, hids⟩ := main
  refine ⟨hlen, hids, ?_⟩
  intro label size color rx ry
  exact ⟨rfl, by rw [newNode, hlen]⟩

def graphW : GraphState :=
  newNode (newNode initialGraph "test" 10 "default" 30 40) "test" 10 "default" 50 60

/-- Witness for C10 on a concrete store with two created nodes. -/
theorem id_equals_index_witness :
    graphW.nextID = graphW.nodes.length :=
  (id_equals_index graphW
    (Reachable.node _ _ _ _ _ _ (Reachable.node _ _ _ _ _ _ Reachable.init))).1
